import Mathlib

/-!
Verification development for the hl-twap-api ingestion pipeline.

Shallow embedding of:
  - the CSV field escaper and TWAP filters shared by the two CSV generators
    (scripts/generate-node-trades-csv.ts, the node_fills_by_block generator)
    and the direct-insert import script (scripts/import-twap-trades.ts);
  - the per-day CSV generation loop of both generators, the persisted
    trade-id counter and tracking file, and multi-run chains;
  - the staged bulk import (staging load, VERIFY_NO_CONFLICT, transactional
    MIGRATE, sequence advance, staging cleanup).

Strings are modelled as List Char.  JavaScript values that may be null or
undefined are modelled by JsOpt / JsVal below, keeping null and undefined
distinct, since the source distinguishes them (x !== null vs x !== undefined).
-/

/-- A JavaScript optional value: undefined, null, or a value. -/
inductive JsOpt (α : Type) where
  | undef : JsOpt α
  | null : JsOpt α
  | val : α → JsOpt α
deriving DecidableEq

/-- `x === null` test. -/
def JsOpt.isNull {α : Type} : JsOpt α → Bool
  | .null => true
  | _ => false

/-- `x === undefined` test. -/
def JsOpt.isUndefined {α : Type} : JsOpt α → Bool
  | .undef => true
  | _ => false

/-- `x` is an actual value (neither null nor undefined). -/
def JsOpt.isVal {α : Type} : JsOpt α → Bool
  | .val _ => true
  | _ => false

/-- A dynamically typed JavaScript value as passed to escapeCsvField. -/
inductive JsVal where
  | undef : JsVal
  | null : JsVal
  | str : List Char → JsVal
  | num : Int → JsVal
deriving DecidableEq

/-- `String(n)` for a number. -/
def intChars (n : Int) : List Char := (toString n).toList

/-- The decimal-digit string of a nonnegative number: both `String(n)` and
the text node-postgres hands back for an int8 (BIGINT) column value. -/
def natChars (n : Nat) : List Char := (toString n).toList

/-- JavaScript `a <= b` on two strings: lexicographic comparison by code
unit, a proper prefix comparing less. -/
def jsStrLe : List Char → List Char → Bool
  | [], _ => true
  | _ :: _, [] => false
  | a :: as, b :: bs =>
      if a < b then true
      else if b < a then false
      else jsStrLe as bs

/-- `strValue.replace(/\\/g, s)` with s two backslashes: double every backslash. -/
def replBackslash (s : List Char) : List Char :=
  s.flatMap fun c => if c = '\\' then ['\\', '\\'] else [c]

/-- `strValue.replace(/"/g, s)` with s two quotes: double every double quote. -/
def replQuote (s : List Char) : List Char :=
  s.flatMap fun c => if c = '"' then ['"', '"'] else [c]

/-- `strValue.includes(c)` test for the three characters that force quoting. -/
def needsQuoting (s : List Char) : Bool :=
  s.contains ',' || s.contains '\n' || s.contains '"'

/-- The escape-and-maybe-quote-wrap step of escapeCsvField applied to String(value). -/
def escQuoteWrap (s : List Char) : List Char :=
  let s1 := replQuote (replBackslash s)
  if needsQuoting s1 then ('"' :: s1) ++ ['"'] else s1

/-- escapeCsvField from both generator scripts (identical bodies):
null and undefined are written as the two-character NULL sentinel backslash-N;
otherwise backslashes and quotes are doubled and the field is quote-wrapped
when it contains a comma, a newline, or a double quote. -/
def escapeCsvField : JsVal → List Char
  | .undef => ['\\', 'N']
  | .null => ['\\', 'N']
  | .str s => escQuoteWrap s
  | .num n => escQuoteWrap (intChars n)

/-- `x || null` on a JavaScript string-or-missing value: undefined, null and
the empty string are all falsy and collapse to null. -/
def jsOrNullStr : JsOpt (List Char) → JsVal
  | .val s => if s = [] then JsVal.null else JsVal.str s
  | _ => JsVal.null

/-- Coerce an optional JavaScript number field to the dynamic value handed
to escapeCsvField. -/
def jsOfOptInt : JsOpt Int → JsVal
  | .undef => JsVal.undef
  | .null => JsVal.null
  | .val n => JsVal.num n

/-- One row of a day trade_participants CSV file; columns in the COPY order
trade_id, user_address, side, start_pos, oid, twap_id, cloid.  The trade_id
is written as a raw number, the remaining columns through escapeCsvField. -/
structure PartRow where
  trade_id : Nat
  user_address : List Char
  side : List Char
  start_pos : List Char
  oid : List Char
  twap_id : List Char
  cloid : List Char
deriving DecidableEq

/-- Per-run counters kept by both generator scripts (interface Stats). -/
structure Stats where
  filesProcessed : Nat
  linesRead : Nat
  tradesWritten : Nat
  participantsWritten : Nat
  tradesSkipped : Nat
  errors : Nat
deriving DecidableEq

/-- The zero-initialised Stats record. -/
def stats0 : Stats :=
  { filesProcessed := 0, linesRead := 0, tradesWritten := 0
    participantsWritten := 0, tradesSkipped := 0, errors := 0 }

/-- Componentwise accumulation of day stats into overall stats. -/
def addStats (a b : Stats) : Stats :=
  { filesProcessed := a.filesProcessed + b.filesProcessed
    linesRead := a.linesRead + b.linesRead
    tradesWritten := a.tradesWritten + b.tradesWritten
    participantsWritten := a.participantsWritten + b.participantsWritten
    tradesSkipped := a.tradesSkipped + b.tradesSkipped
    errors := a.errors + b.errors }

/-- One raw input line as seen by the per-line loop: a whitespace-only line
(skipped before it is counted), a line on which JSON.parse throws, or a
successfully parsed record. -/
inductive Line (ρ : Type) where
  | empty : Line ρ
  | malformed : Line ρ
  | good : ρ → Line ρ
deriving DecidableEq

/-- Mutable state threaded through a generator run: the nextTradeId counter,
the rows written so far to the current day CSV pair, and the counters. -/
structure GenSt (τ : Type) where
  nextTradeId : Nat
  trades : List τ
  parts : List PartRow
  stats : Stats
deriving DecidableEq

/-- The on-disk outcome of one day partition: none when the day wrote zero
trades and its empty CSV pair was unlinked, otherwise the contents of the
trades CSV and the participants CSV. -/
structure DayOut (τ : Type) where
  files : Option (List τ × List PartRow)
deriving DecidableEq

/-- nextTradeId initialisation from the .last_trade_id tracking file, used
identically by both generators absent a --start-id override: a readable
positive value resumes at value + 1, anything else starts at 1. -/
def startIdFromTracking : Option Nat → Nat
  | some l => if 0 < l then l + 1 else 1
  | none => 1

/-- The observable outcome of one whole generator run. -/
structure RunOut (τ : Type) where
  dayOuts : List (DayOut τ)
  finalNextId : Nat
  stats : Stats
  exitCode : Nat
  trackingAfter : Option Nat
deriving DecidableEq

/-- All trade ids of a run in emission order: the ids of the trades-CSV
rows of each surviving day pair, day by day. -/
def emittedIds {τ : Type} (idOf : τ → Nat) (outs : List (DayOut τ)) : List Nat :=
  outs.flatMap fun d =>
    match d.files with
    | none => []
    | some (tr, _) => tr.map idOf

namespace NodeTrades

/-- interface SideInfo of the node_trades (variant A) format.  The format
does not carry an explicit side: array position encodes it. -/
structure SideInfo where
  user : List Char
  start_pos : List Char
  oid : Int
  twap_id : JsOpt Int
  cloid : JsOpt (List Char)
deriving DecidableEq

/-- interface TradeRecord of the node_trades format; side_info may be
absent or null on malformed upstream data, hence JsOpt. -/
structure TradeRecord where
  coin : List Char
  side : List Char
  time : List Char
  px : List Char
  sz : List Char
  hash : List Char
  trade_dir_override : List Char
  side_info : JsOpt (List SideInfo)
deriving DecidableEq

/-- tradeHasTwapId of the variant A generator:
some participant has twap_id !== null && twap_id !== undefined. -/
def tradeHasTwapId (sideInfo : List SideInfo) : Bool :=
  sideInfo.any fun si => !si.twap_id.isNull && !si.twap_id.isUndefined

/-- One row of a day trades CSV file: id (raw number), then the escaped
columns coin, time, px, sz, hash, trade_dir_override. -/
structure TradeRow where
  id : Nat
  coin : List Char
  time : List Char
  px : List Char
  sz : List Char
  hash : List Char
  trade_dir_override : List Char
deriving DecidableEq

/-- The string literal Na: the generator maps trade_dir_override === Na
to null before escaping. -/
def naChars : List Char := ['N', 'a']

/-- The trades-CSV row written for an accepted record. -/
def tradeRowOf (tradeId : Nat) (r : TradeRecord) : TradeRow :=
  { id := tradeId
    coin := escapeCsvField (JsVal.str r.coin)
    time := escapeCsvField (JsVal.str r.time)
    px := escapeCsvField (JsVal.str r.px)
    sz := escapeCsvField (JsVal.str r.sz)
    hash := escapeCsvField (JsVal.str r.hash)
    trade_dir_override :=
      escapeCsvField
        (if r.trade_dir_override = naChars then JsVal.null
         else JsVal.str r.trade_dir_override) }

/-- The participant rows written for an accepted record: one per side_info
entry, in array order, starting at array index i.  Side is determined by
position alone: index 0 is B (buyer), every later index is A (seller). -/
def partRowsFrom (tradeId : Nat) (i : Nat) : List SideInfo → List PartRow
  | [] => []
  | si :: rest =>
      { trade_id := tradeId
        user_address := escapeCsvField (JsVal.str si.user)
        side := escapeCsvField (JsVal.str (if i = 0 then ['B'] else ['A']))
        start_pos := escapeCsvField (JsVal.str si.start_pos)
        oid := escapeCsvField (JsVal.num si.oid)
        twap_id := escapeCsvField (jsOfOptInt si.twap_id)
        cloid := escapeCsvField (jsOrNullStr si.cloid) } :: partRowsFrom tradeId (i + 1) rest

/-- The body of the per-line loop of processFile in the variant A generator:
skip empty lines before counting, count the line, count JSON.parse failures
as errors, skip records without a side_info array, apply the TWAP filter
(counting skips), and only then allocate nextTradeId and write the rows. -/
def processLine (st : GenSt TradeRow) (ln : Line TradeRecord) : GenSt TradeRow :=
  match ln with
  | .empty => st
  | .malformed =>
      { st with stats := { st.stats with
          linesRead := st.stats.linesRead + 1
          errors := st.stats.errors + 1 } }
  | .good r =>
      let st1 := { st with stats := { st.stats with linesRead := st.stats.linesRead + 1 } }
      match r.side_info with
      | .undef => st1
      | .null => st1
      | .val sis =>
          if sis.length = 0 then st1
          else if !tradeHasTwapId sis then
            { st1 with stats := { st1.stats with tradesSkipped := st1.stats.tradesSkipped + 1 } }
          else
            let tradeId := st1.nextTradeId
            { nextTradeId := tradeId + 1
              trades := st1.trades ++ [tradeRowOf tradeId r]
              parts := st1.parts ++ partRowsFrom tradeId 0 sis
              stats := { st1.stats with
                tradesWritten := st1.stats.tradesWritten + 1
                participantsWritten := st1.stats.participantsWritten + sis.length } }

/-- processFile: fold the per-line loop over one hour file, then count the
file as processed. -/
def processFile (st : GenSt TradeRow) (lines : List (Line TradeRecord)) : GenSt TradeRow :=
  let st1 := lines.foldl processLine st
  { st1 with stats := { st1.stats with filesProcessed := st1.stats.filesProcessed + 1 } }

/-- One day partition of the variant A main loop: open a fresh CSV pair,
process every hour file of the day, and if zero trades were written unlink
the empty CSV pair.  Returns the day outcome, the advanced counter, and
the day stats. -/
def processDay (nextId : Nat) (files : List (List (Line TradeRecord))) :
    DayOut TradeRow × Nat × Stats :=
  let st0 : GenSt TradeRow := { nextTradeId := nextId, trades := [], parts := [], stats := stats0 }
  let st := files.foldl processFile st0
  if st.stats.tradesWritten = 0 then ({ files := none }, st.nextTradeId, st.stats)
  else ({ files := some (st.trades, st.parts) }, st.nextTradeId, st.stats)

/-- The day loop of main: process the (sorted) days in order, threading the
counter and accumulating overall stats. -/
def runDays (nextId : Nat) :
    List (List (List (Line TradeRecord))) → List (DayOut TradeRow) × Nat × Stats
  | [] => ([], nextId, stats0)
  | d :: rest =>
      let r1 := processDay nextId d
      let r2 := runDays r1.2.1 rest
      (r1.1 :: r2.1, r2.2.1, addStats r1.2.2 r2.2.2)

/-- A whole variant A generator run: initialise nextTradeId from the
tracking file, process all days, then exit 1 without touching the tracking
file if any errors were counted, else write the last used id to the
tracking file when at least one trade was written. -/
def run (tracking : Option Nat) (days : List (List (List (Line TradeRecord)))) :
    RunOut TradeRow :=
  let r := runDays (startIdFromTracking tracking) days
  if 0 < r.2.2.errors then
    { dayOuts := r.1, finalNextId := r.2.1, stats := r.2.2, exitCode := 1
      trackingAfter := tracking }
  else
    { dayOuts := r.1, finalNextId := r.2.1, stats := r.2.2, exitCode := 0
      trackingAfter := if 0 < r.2.2.tradesWritten then some (r.2.1 - 1) else tracking }

end NodeTrades

namespace NodeFills

/-- interface TradeData of the node_fills_by_block (variant B) format.
time is the epoch-millisecond timestamp (its ISO-8601 rendering at write
time is injective formatting, not modelled; no claim depends on the text). -/
structure TradeData where
  coin : List Char
  px : List Char
  sz : List Char
  side : List Char
  time : Nat
  startPosition : List Char
  dir : List Char
  closedPnl : List Char
  hash : List Char
  oid : Int
  crossed : Bool
  fee : List Char
  tid : Nat
  cloid : JsOpt (List Char)
  feeToken : List Char
  twapId : JsOpt Int
deriving DecidableEq

/-- interface BlockRecord: one block of (user_address, trade_data) events. -/
structure BlockRecord where
  local_time : List Char
  block_time : List Char
  block_number : Nat
  events : JsOpt (List (List Char × TradeData))
deriving DecidableEq

/-- tradeHasTwapId of the variant B generator:
some participant has twapId !== null && twapId !== undefined. -/
def tradeHasTwapId (participants : List (List Char × TradeData)) : Bool :=
  participants.any fun p => !p.2.twapId.isNull && !p.2.twapId.isUndefined

/-- One row of a day trades CSV file in the variant B generator: id, then
escaped coin, ISO time (kept as the raw millisecond value, see TradeData),
px, sz, hash, and dir as trade_dir_override. -/
structure TradeRow where
  id : Nat
  coin : List Char
  timeMs : Nat
  px : List Char
  sz : List Char
  hash : List Char
  trade_dir_override : List Char
deriving DecidableEq

/-- Insert one event into the insertion-ordered tid grouping, mirroring a
JavaScript Map: a new tid is appended at the end, an existing tid has the
event appended to its bucket. -/
def insertEvent (m : List (Nat × List (List Char × TradeData))) (tid : Nat)
    (e : List Char × TradeData) : List (Nat × List (List Char × TradeData)) :=
  match m with
  | [] => [(tid, [e])]
  | (t, es) :: rest =>
      if t = tid then (t, es ++ [e]) :: rest else (t, es) :: insertEvent rest tid e

/-- Group the events of a block by tid in insertion order, skipping events
whose tid is falsy (0) or whose user address is falsy (empty), as the
source does with !trade.tid || !userAddress. -/
def groupByTid (events : List (List Char × TradeData)) :
    List (Nat × List (List Char × TradeData)) :=
  events.foldl
    (fun m ev => if ev.2.tid = 0 || ev.1 = [] then m else insertEvent m ev.2.tid ev)
    []

/-- The trades-CSV row for an accepted group, built from the first
participant of the group. -/
def tradeRowOf (tradeId : Nat) (firstTrade : TradeData) : TradeRow :=
  { id := tradeId
    coin := escapeCsvField (JsVal.str firstTrade.coin)
    timeMs := firstTrade.time
    px := escapeCsvField (JsVal.str firstTrade.px)
    sz := escapeCsvField (JsVal.str firstTrade.sz)
    hash := escapeCsvField (JsVal.str firstTrade.hash)
    trade_dir_override :=
      escapeCsvField (jsOrNullStr (if firstTrade.dir = [] then JsOpt.null else JsOpt.val firstTrade.dir)) }

/-- The participant row written for one event of an accepted group; the
side here is explicit in the data, unlike variant A. -/
def partRowOf (tradeId : Nat) (p : List Char × TradeData) : PartRow :=
  { trade_id := tradeId
    user_address := escapeCsvField (JsVal.str p.1)
    side := escapeCsvField (JsVal.str p.2.side)
    start_pos := escapeCsvField (JsVal.str p.2.startPosition)
    oid := escapeCsvField (JsVal.num p.2.oid)
    twap_id := escapeCsvField (jsOfOptInt p.2.twapId)
    cloid := escapeCsvField (jsOrNullStr p.2.cloid) }

/-- The body of the per-group loop: skip empty groups, apply the TWAP
filter (counting skips), then allocate nextTradeId, write one trade row
from the first participant and one participant row per event. -/
def processGroup (st : GenSt TradeRow) (g : Nat × List (List Char × TradeData)) :
    GenSt TradeRow :=
  match g.2 with
  | [] => st
  | p0 :: _ =>
      if !tradeHasTwapId g.2 then
        { st with stats := { st.stats with tradesSkipped := st.stats.tradesSkipped + 1 } }
      else
        let tradeId := st.nextTradeId
        { nextTradeId := tradeId + 1
          trades := st.trades ++ [tradeRowOf tradeId p0.2]
          parts := st.parts ++ g.2.map (partRowOf tradeId)
          stats := { st.stats with
            tradesWritten := st.stats.tradesWritten + 1
            participantsWritten := st.stats.participantsWritten + g.2.length } }

/-- The body of the per-line loop of processFile in the variant B
generator: count lines and parse errors, skip blocks without events, group
the events by tid and process each group. -/
def processLine (st : GenSt TradeRow) (ln : Line BlockRecord) : GenSt TradeRow :=
  match ln with
  | .empty => st
  | .malformed =>
      { st with stats := { st.stats with
          linesRead := st.stats.linesRead + 1
          errors := st.stats.errors + 1 } }
  | .good b =>
      let st1 := { st with stats := { st.stats with linesRead := st.stats.linesRead + 1 } }
      match b.events with
      | .undef => st1
      | .null => st1
      | .val evs =>
          if evs.length = 0 then st1
          else (groupByTid evs).foldl processGroup st1

/-- processFile of the variant B generator. -/
def processFile (st : GenSt TradeRow) (lines : List (Line BlockRecord)) : GenSt TradeRow :=
  let st1 := lines.foldl processLine st
  { st1 with stats := { st1.stats with filesProcessed := st1.stats.filesProcessed + 1 } }

/-- One day partition of the variant B main loop, with the same structure
as variant A: process every hour file, unlink the CSV pair if the day
wrote zero trades. -/
def processDay (nextId : Nat) (files : List (List (Line BlockRecord))) :
    DayOut TradeRow × Nat × Stats :=
  let st0 : GenSt TradeRow := { nextTradeId := nextId, trades := [], parts := [], stats := stats0 }
  let st := files.foldl processFile st0
  if st.stats.tradesWritten = 0 then ({ files := none }, st.nextTradeId, st.stats)
  else ({ files := some (st.trades, st.parts) }, st.nextTradeId, st.stats)

/-- The day loop of the variant B main. -/
def runDays (nextId : Nat) :
    List (List (List (Line BlockRecord))) → List (DayOut TradeRow) × Nat × Stats
  | [] => ([], nextId, stats0)
  | d :: rest =>
      let r1 := processDay nextId d
      let r2 := runDays r1.2.1 rest
      (r1.1 :: r2.1, r2.2.1, addStats r1.2.2 r2.2.2)

/-- A whole variant B generator run; the tracking-file logic is identical
to variant A (both scripts share the .last_trade_id file). -/
def run (tracking : Option Nat) (days : List (List (List (Line BlockRecord)))) :
    RunOut TradeRow :=
  let r := runDays (startIdFromTracking tracking) days
  if 0 < r.2.2.errors then
    { dayOuts := r.1, finalNextId := r.2.1, stats := r.2.2, exitCode := 1
      trackingAfter := tracking }
  else
    { dayOuts := r.1, finalNextId := r.2.1, stats := r.2.2, exitCode := 0
      trackingAfter := if 0 < r.2.2.tradesWritten then some (r.2.1 - 1) else tracking }

end NodeFills

/-- One generator invocation in a sequence of runs sharing the tracking
file: either the variant A script over its day inputs or the variant B
script over its day inputs. -/
inductive RunInput where
  | nodeTrades : List (List (List (Line NodeTrades.TradeRecord))) → RunInput
  | nodeFills : List (List (List (Line NodeFills.BlockRecord))) → RunInput

/-- What one run contributes to a multi-run chain: its emitted ids, the
tracking file it leaves behind, and its error count. -/
structure ChainStep where
  emitted : List Nat
  trackingAfter : Option Nat
  errors : Nat
deriving DecidableEq

/-- Execute one run of either variant against the current tracking file. -/
def doRun (tracking : Option Nat) : RunInput → ChainStep
  | .nodeTrades days =>
      let r := NodeTrades.run tracking days
      { emitted := emittedIds NodeTrades.TradeRow.id r.dayOuts
        trackingAfter := r.trackingAfter, errors := r.stats.errors }
  | .nodeFills days =>
      let r := NodeFills.run tracking days
      { emitted := emittedIds NodeFills.TradeRow.id r.dayOuts
        trackingAfter := r.trackingAfter, errors := r.stats.errors }

/-- N sequential generator runs sharing one tracking file: every run reads
the tracking value its predecessor left.  Returns all emitted ids in
emission order and the final tracking value. -/
def runChain (tracking : Option Nat) : List RunInput → List Nat × Option Nat
  | [] => ([], tracking)
  | r :: rest =>
      let s := doRun tracking r
      let c := runChain s.trackingAfter rest
      (s.emitted ++ c.1, c.2)

/-- Every run of the chain, as executed at its position, finishes with a
zero error count. -/
def chainZeroErrors (tracking : Option Nat) : List RunInput → Bool
  | [] => true
  | r :: rest =>
      ((doRun tracking r).errors == 0) && chainZeroErrors (doRun tracking r).trackingAfter rest

/-! Concrete sample inputs used by witnesses and counterexamples. -/

/-- A participant carrying a TWAP strategy id. -/
def siTwap : NodeTrades.SideInfo :=
  { user := ['0', 'x', 'A'], start_pos := ['0'], oid := 1
    twap_id := JsOpt.val 7, cloid := JsOpt.null }

/-- A participant with a literal null twap_id. -/
def siPlain : NodeTrades.SideInfo :=
  { user := ['0', 'x', 'B'], start_pos := ['0'], oid := 2
    twap_id := JsOpt.null, cloid := JsOpt.null }

/-- A participant whose twap_id field is absent (undefined). -/
def siUndef : NodeTrades.SideInfo :=
  { user := ['0', 'x', 'C'], start_pos := ['0'], oid := 3
    twap_id := JsOpt.undef, cloid := JsOpt.null }

/-- A variant A record that passes the TWAP filter, with buyer 0xA at
side_info position 0 and seller 0xB at position 1. -/
def recTwap : NodeTrades.TradeRecord :=
  { coin := ['E', 'T', 'H'], side := ['B'], time := ['t'], px := ['1'], sz := ['2']
    hash := ['h'], trade_dir_override := [], side_info := JsOpt.val [siTwap, siPlain] }

/-- A variant A record that the TWAP filter rejects. -/
def recPlain : NodeTrades.TradeRecord :=
  { coin := ['E', 'T', 'H'], side := ['B'], time := ['t'], px := ['1'], sz := ['2']
    hash := ['h'], trade_dir_override := [], side_info := JsOpt.val [siPlain] }

/-- A variant B trade event with a TWAP id, tid 77. -/
def tdTwap : NodeFills.TradeData :=
  { coin := ['E', 'T', 'H'], px := ['1'], sz := ['2'], side := ['B'], time := 5
    startPosition := ['0'], dir := ['O'], closedPnl := ['0'], hash := ['h'], oid := 4
    crossed := true, fee := ['0'], tid := 77, cloid := JsOpt.null
    feeToken := ['U'], twapId := JsOpt.val 9 }

/-- A variant B trade event without a TWAP id, tid 78. -/
def tdPlain : NodeFills.TradeData :=
  { coin := ['E', 'T', 'H'], px := ['1'], sz := ['2'], side := ['A'], time := 5
    startPosition := ['0'], dir := ['O'], closedPnl := ['0'], hash := ['h'], oid := 5
    crossed := false, fee := ['0'], tid := 78, cloid := JsOpt.null
    feeToken := ['U'], twapId := JsOpt.null }

/-- A variant B block with one TWAP trade and one non-TWAP trade. -/
def blockTwap : NodeFills.BlockRecord :=
  { local_time := ['l'], block_time := ['b'], block_number := 1
    events := JsOpt.val [(['0', 'x', 'A'], tdTwap), (['0', 'x', 'B'], tdPlain)] }

/-- A variant B block whose only trade has no TWAP id. -/
def blockPlain : NodeFills.BlockRecord :=
  { local_time := ['l'], block_time := ['b'], block_number := 2
    events := JsOpt.val [(['0', 'x', 'B'], tdPlain)] }

/-- A run of the variant A generator over one day whose only good line is
accepted, followed by a malformed line: it emits one id and one error. -/
def runInputErr : RunInput :=
  RunInput.nodeTrades [[[Line.good recTwap, Line.malformed]]]

/-- A clean run of the variant A generator over one day with one accepted
line. -/
def runInputOk : RunInput :=
  RunInput.nodeTrades [[[Line.good recTwap]]]

/-- A clean run of the variant B generator over one day with one block. -/
def runInputFills : RunInput :=
  RunInput.nodeFills [[[Line.good blockTwap]]]

namespace ImportTwap

/-- interface TradeRecord of scripts/import-twap-trades.ts: same node_trades
format, with side_info declared as a plain array (a record whose side_info
is absent makes the filter throw, which the per-line catch counts as an
error, so such a line is never inserted). -/
structure TradeRecord where
  coin : List Char
  side : List Char
  time : List Char
  px : List Char
  sz : List Char
  hash : List Char
  trade_dir_override : List Char
  side_info : List NodeTrades.SideInfo
deriving DecidableEq

/-- hasTwapId of scripts/import-twap-trades.ts, the direct-insert path:
record.side_info.some of twap_id !== null.  Unlike the two generators it
does not also test twap_id !== undefined. -/
def hasTwapId (record : TradeRecord) : Bool :=
  record.side_info.any fun si => !si.twap_id.isNull

end ImportTwap

/-- A direct-insert record whose single participant has twap_id absent
(undefined), not null. -/
def recUndef : ImportTwap.TradeRecord :=
  { coin := ['E', 'T', 'H'], side := ['B'], time := ['t'], px := ['1'], sz := ['2']
    hash := ['h'], trade_dir_override := [], side_info := [siUndef] }

/-- A direct-insert record whose participants all carry an explicit
twap_id field (one value, one null). -/
def recImp : ImportTwap.TradeRecord :=
  { coin := ['E', 'T', 'H'], side := ['B'], time := ['t'], px := ['1'], sz := ['2']
    hash := ['h'], trade_dir_override := [], side_info := [siTwap, siPlain] }

namespace BulkImport

/-- A row of the trades / trades_staging table, with the columns the COPY
list names: id, coin, time, px, sz, hash, trade_dir_override.  The import
script only ever inspects the id column (MIN and MAX queries); the other
columns are carried verbatim. -/
structure DbTradeRow where
  id : Nat
  coin : List Char
  time : List Char
  px : List Char
  sz : List Char
  hash : List Char
  trade_dir_override : List Char
deriving DecidableEq

/-- A row of the trade_participants / trade_participants_staging table:
trade_id, user_address, side, start_pos, oid, twap_id, cloid. -/
structure DbPartRow where
  trade_id : Nat
  user_address : List Char
  side : List Char
  start_pos : List Char
  oid : List Char
  twap_id : List Char
  cloid : List Char
deriving DecidableEq

/-- The database state: production tables, staging tables, and the
trades_id_seq sequence value. -/
structure Db where
  trades : List DbTradeRow
  parts : List DbPartRow
  tradesStaging : List DbTradeRow
  partsStaging : List DbPartRow
  seq : Nat
deriving DecidableEq

/-- SELECT MAX(id) FROM trades as the script receives it, before the
`|| 0` fallback: none for an empty table (SQL NULL), otherwise the
numeric maximum, which node-postgres hands over as its decimal-digit
string since id is int8 (rendered through natChars at the comparison). -/
def maxTradeIdSql (l : List DbTradeRow) : Option Nat :=
  l.foldr
    (fun r m => match m with
      | none => some r.id
      | some v => some (max r.id v))
    none

/-- SELECT MAX(id) FROM trades collapsed to a number with 0 for NULL: the
numeric value whose decimal text is interpolated into the setval call. -/
def maxTradeId (l : List DbTradeRow) : Nat :=
  l.foldr (fun r m => max r.id m) 0

/-- SELECT MIN(id) FROM trades_staging: none on an empty staging table. -/
def minStagingId (l : List DbTradeRow) : Option Nat :=
  l.foldr
    (fun r m => match m with
      | none => some r.id
      | some v => some (min r.id v))
    none

/-- The VERIFY_NO_CONFLICT test, mirroring the JavaScript condition
stagingMinId && stagingMinId <= maxIdBefore under node-postgres value
semantics: id is BIGSERIAL (int8), so MIN and MAX come back as decimal
strings — the script itself parseInts the int8 COUNT but never min or
max, and no setTypeParser override exists.  A NULL staging minimum is
falsy and skips the check, while any digit string (even a 0) is truthy.
With production non-empty both operands are strings and JavaScript
compares them lexicographically by code unit; with production empty,
maxIdBefore is the number 0 from the || 0 fallback and the digit string
is converted to a number for the comparison. -/
def idConflict (stagingMin : Option Nat) (maxBefore : Option Nat) : Bool :=
  match stagingMin with
  | none => false
  | some s =>
      match maxBefore with
      | none => decide (s = 0)
      | some m => jsStrLe (natChars s) (natChars m)

/-- The MIGRATE transaction: BEGIN, INSERT all trades_staging rows into
trades preserving every column including id, INSERT all
trade_participants_staging rows into trade_participants, COMMIT.  A failure
of either INSERT (modelled by the two flags) raises, the handler issues
ROLLBACK, and the whole pending state is discarded: an error result leaves
the caller with the database unchanged. -/
def migrateTx (db : Db) (failTrades failParts : Bool) : Except Unit Db :=
  if failTrades then Except.error ()
  else
    let db1 := { db with trades := db.trades ++ db.tradesStaging }
    if failParts then Except.error ()
    else Except.ok { db1 with parts := db1.parts ++ db1.partsStaging }

/-- The CSV rows loaded during STAGE_LOAD of one run. -/
structure StagedCsvs where
  trades : List DbTradeRow
  parts : List DbPartRow
deriving DecidableEq

/-- The import run of scripts (part_015) after connection: query the
production max id, COPY the scanned CSVs into staging, run
VERIFY_NO_CONFLICT (process.exit(1) on conflict, before MIGRATE), stop
with exit 0 if stagingOnly, otherwise MIGRATE transactionally (exit 1 and
keep staging on rollback), advance trades_id_seq to the new max unless
skipSequence, and TRUNCATE the staging tables.  Returns (exit code, final
database state).  A migrate-only run is the same with empty csv. -/
def runImport (db : Db) (csv : StagedCsvs) (failTrades failParts : Bool)
    (stagingOnly skipSequence : Bool) : Nat × Db :=
  let maxIdBefore := maxTradeIdSql db.trades
  let db1 := { db with
    tradesStaging := db.tradesStaging ++ csv.trades
    partsStaging := db.partsStaging ++ csv.parts }
  if idConflict (minStagingId db1.tradesStaging) maxIdBefore then (1, db1)
  else if stagingOnly then (0, db1)
  else
    match migrateTx db1 failTrades failParts with
    | Except.error _ => (1, db1)
    | Except.ok db2 =>
        let maxIdAfter := maxTradeId db2.trades
        let db3 := if skipSequence then db2 else { db2 with seq := maxIdAfter }
        (0, { db3 with tradesStaging := [], partsStaging := [] })

/-- A sample production or staging trades row with the given id. -/
def rowT (i : Nat) : DbTradeRow :=
  { id := i, coin := ['E'], time := ['t'], px := ['1'], sz := ['1']
    hash := ['h'], trade_dir_override := ['\\', 'N'] }

/-- A sample participants row owned by trade i. -/
def rowP (i : Nat) : DbPartRow :=
  { trade_id := i, user_address := ['u'], side := ['B'], start_pos := ['0']
    oid := ['1'], twap_id := ['5'], cloid := ['\\', 'N'] }

/-- A production database holding one trade with id 1 and empty staging. -/
def db1 : Db :=
  { trades := [rowT 1], parts := [rowP 1], tradesStaging := [], partsStaging := [], seq := 1 }

/-- A CSV pair whose minimum staging id 1 collides with production. -/
def csvConflict : StagedCsvs := { trades := [rowT 1], parts := [rowP 1] }

/-- A CSV pair with staging ids strictly above the production maximum. -/
def csvClean : StagedCsvs := { trades := [rowT 2], parts := [rowP 2] }

/-- A production database holding one trade with id 10. -/
def db10 : Db :=
  { trades := [rowT 10], parts := [rowP 10], tradesStaging := [], partsStaging := [], seq := 10 }

/-- A CSV pair whose staging minimum id 9 numerically collides with a
production maximum of 10. -/
def csv9 : StagedCsvs := { trades := [rowT 9], parts := [rowP 9] }

end BulkImport

/-- The participants of a variant A record: its side_info entries, or none
when the field is absent, null, or an empty array. -/
def NodeTrades.participantsOf (r : NodeTrades.TradeRecord) : List NodeTrades.SideInfo :=
  match r.side_info with
  | .val sis => sis
  | _ => []

/-- A fresh variant A generator state starting at id 1. -/
def st0A : GenSt NodeTrades.TradeRow :=
  { nextTradeId := 1, trades := [], parts := [], stats := stats0 }

/-- Relation between two generator states: the second extends the first by
appending trade rows whose ids are exactly the next d counter values,
appending participant rows whose trade_id values cover exactly the new
trade ids, while advancing the counter and the tradesWritten counter by
the same d.  Every elementary processing step of both generators realises
this relation, which packages id-allocation monotonicity, the
counter-advance accounting, and per-day referential closure. -/
def StepsTo {τ : Type} (idOf : τ → Nat) (st st2 : GenSt τ) : Prop :=
  ∃ d newT newP,
    st2.nextTradeId = st.nextTradeId + d ∧
    st2.trades = st.trades ++ newT ∧
    st2.parts = st.parts ++ newP ∧
    st2.stats.tradesWritten = st.stats.tradesWritten + d ∧
    newT.map idOf = List.range' st.nextTradeId d ∧
    (∀ k : Nat, k ∈ newP.map PartRow.trade_id ↔ k ∈ newT.map idOf)

/-! ## Helper lemmas -/

theorem JsOpt.val_of_not_null_not_undef {α : Type} (x : JsOpt α) :
    (!x.isNull && !x.isUndefined) = x.isVal := by
  cases x <;> rfl

theorem stepsTo_refl {τ : Type} (idOf : τ → Nat) (st : GenSt τ) : StepsTo idOf st st := by
  exact ⟨0, [], [], rfl, by simp, by simp, rfl, by simp, by simp⟩

theorem stepsTo_trans {τ : Type} {idOf : τ → Nat} {st1 st2 st3 : GenSt τ}
    (h1 : StepsTo idOf st1 st2) (h2 : StepsTo idOf st2 st3) : StepsTo idOf st1 st3 := by
  obtain ⟨d1, t1, p1, hn1, ht1, hp1, hw1, hm1, hk1⟩ := h1
  obtain ⟨d2, t2, p2, hn2, ht2, hp2, hw2, hm2, hk2⟩ := h2
  refine ⟨d1 + d2, t1 ++ t2, p1 ++ p2, ?_, ?_, ?_, ?_, ?_, ?_⟩
  · rw [hn2, hn1, Nat.add_assoc]
  · rw [ht2, ht1, List.append_assoc]
  · rw [hp2, hp1, List.append_assoc]
  · rw [hw2, hw1, Nat.add_assoc]
  · rw [List.map_append, hm1, hm2, hn1, List.range'_append_1, Nat.add_comm d2 d1]
  · intro k
    simp only [List.map_append, List.mem_append]
    exact or_congr (hk1 k) (hk2 k)

theorem stepsTo_same {τ : Type} (idOf : τ → Nat) {st st2 : GenSt τ}
    (hn : st2.nextTradeId = st.nextTradeId) (ht : st2.trades = st.trades)
    (hp : st2.parts = st.parts) (hw : st2.stats.tradesWritten = st.stats.tradesWritten) :
    StepsTo idOf st st2 := by
  exact ⟨0, [], [], by simp [hn], by simp [ht], by simp [hp], by simp [hw], by simp, by simp⟩

theorem stepsTo_emit {τ : Type} (idOf : τ → Nat) {st st2 : GenSt τ} (row : τ)
    (newP : List PartRow)
    (hn : st2.nextTradeId = st.nextTradeId + 1)
    (ht : st2.trades = st.trades ++ [row])
    (hp : st2.parts = st.parts ++ newP)
    (hw : st2.stats.tradesWritten = st.stats.tradesWritten + 1)
    (hid : idOf row = st.nextTradeId)
    (hnp : newP ≠ [])
    (hall : ∀ p ∈ newP, p.trade_id = st.nextTradeId) :
    StepsTo idOf st st2 := by
  refine ⟨1, [row], newP, hn, ht, hp, hw, by simp [hid], ?_⟩
  intro k
  simp only [List.map_cons, List.map_nil, List.mem_singleton, List.mem_map]
  constructor
  · rintro ⟨p, hpm, rfl⟩
    rw [hall p hpm, hid]
  · rintro rfl
    match newP, hnp with
    | p :: rest, _ =>
        exact ⟨p, List.mem_cons_self p rest, by rw [hall p (List.mem_cons_self p rest), hid]⟩

theorem stepsTo_foldl {τ ι : Type} (idOf : τ → Nat) (step : GenSt τ → ι → GenSt τ)
    (hstep : ∀ st u, StepsTo idOf st (step st u)) :
    ∀ (us : List ι) (st : GenSt τ), StepsTo idOf st (us.foldl step st)
  | [], st => stepsTo_refl idOf st
  | u :: us, st =>
      stepsTo_trans (hstep st u) (stepsTo_foldl idOf step hstep us (step st u))

theorem chainLt_range' (s n : Nat) : List.Chain' (· < ·) (List.range' s n) := by
  cases n with
  | zero => simp
  | succ m =>
      rw [List.range'_succ]
      exact List.chain_lt_range' s m (by omega)

theorem NodeTrades.partRowsFrom_trade_id (tid : Nat) :
    ∀ (i : Nat) (sis : List NodeTrades.SideInfo) (p : PartRow),
      p ∈ NodeTrades.partRowsFrom tid i sis → p.trade_id = tid
  | _, [], p, h => by simp [NodeTrades.partRowsFrom] at h
  | i, si :: rest, p, h => by
      simp only [NodeTrades.partRowsFrom, List.mem_cons] at h
      rcases h with h | h
      · rw [h]
      · exact NodeTrades.partRowsFrom_trade_id tid (i + 1) rest p h

theorem NodeTrades.partRowsFrom_ne_nil (tid i : Nat) (si : NodeTrades.SideInfo)
    (rest : List NodeTrades.SideInfo) :
    NodeTrades.partRowsFrom tid i (si :: rest) ≠ [] := by
  simp [NodeTrades.partRowsFrom]

theorem NodeTrades.processLine_stepsTo (st : GenSt NodeTrades.TradeRow)
    (ln : Line NodeTrades.TradeRecord) :
    StepsTo NodeTrades.TradeRow.id st (NodeTrades.processLine st ln) := by
  cases ln with
  | empty => exact stepsTo_refl _ _
  | malformed => exact stepsTo_same _ rfl rfl rfl rfl
  | good r =>
      cases hsi : r.side_info with
      | undef =>
          exact stepsTo_same _ (by simp [NodeTrades.processLine, hsi])
            (by simp [NodeTrades.processLine, hsi]) (by simp [NodeTrades.processLine, hsi])
            (by simp [NodeTrades.processLine, hsi])
      | null =>
          exact stepsTo_same _ (by simp [NodeTrades.processLine, hsi])
            (by simp [NodeTrades.processLine, hsi]) (by simp [NodeTrades.processLine, hsi])
            (by simp [NodeTrades.processLine, hsi])
      | val sis =>
          by_cases hlen : sis.length = 0
          · exact stepsTo_same _ (by simp [NodeTrades.processLine, hsi, hlen])
              (by simp [NodeTrades.processLine, hsi, hlen])
              (by simp [NodeTrades.processLine, hsi, hlen])
              (by simp [NodeTrades.processLine, hsi, hlen])
          · by_cases hfil : NodeTrades.tradeHasTwapId sis
            · refine stepsTo_emit NodeTrades.TradeRow.id
                (NodeTrades.tradeRowOf st.nextTradeId r)
                (NodeTrades.partRowsFrom st.nextTradeId 0 sis)
                (by simp [NodeTrades.processLine, hsi, hlen, hfil])
                (by simp [NodeTrades.processLine, hsi, hlen, hfil])
                (by simp [NodeTrades.processLine, hsi, hlen, hfil])
                (by simp [NodeTrades.processLine, hsi, hlen, hfil])
                rfl ?_ (NodeTrades.partRowsFrom_trade_id st.nextTradeId 0 sis)
              match sis, hlen with
              | si :: rest, _ => exact NodeTrades.partRowsFrom_ne_nil _ _ si rest
            · exact stepsTo_same _ (by simp [NodeTrades.processLine, hsi, hlen, hfil])
                (by simp [NodeTrades.processLine, hsi, hlen, hfil])
                (by simp [NodeTrades.processLine, hsi, hlen, hfil])
                (by simp [NodeTrades.processLine, hsi, hlen, hfil])

theorem NodeTrades.processFile_stepsTo (st : GenSt NodeTrades.TradeRow)
    (lines : List (Line NodeTrades.TradeRecord)) :
    StepsTo NodeTrades.TradeRow.id st (NodeTrades.processFile st lines) :=
  stepsTo_trans
    (stepsTo_foldl _ _ NodeTrades.processLine_stepsTo lines st)
    (stepsTo_same _ rfl rfl rfl rfl)

theorem NodeFills.processGroup_stepsTo (st : GenSt NodeFills.TradeRow)
    (g : Nat × List (List Char × NodeFills.TradeData)) :
    StepsTo NodeFills.TradeRow.id st (NodeFills.processGroup st g) := by
  rcases g with ⟨t, ps⟩
  cases ps with
  | nil => exact stepsTo_refl _ _
  | cons p0 rest =>
      by_cases hfil : NodeFills.tradeHasTwapId (p0 :: rest)
      · refine stepsTo_emit NodeFills.TradeRow.id
          (NodeFills.tradeRowOf st.nextTradeId p0.2)
          ((p0 :: rest).map (NodeFills.partRowOf st.nextTradeId))
          (by simp [NodeFills.processGroup, hfil])
          (by simp [NodeFills.processGroup, hfil])
          (by simp [NodeFills.processGroup, hfil])
          (by simp [NodeFills.processGroup, hfil])
          rfl (by simp) ?_
        intro p hp
        rw [List.mem_map] at hp
        obtain ⟨q, _, rfl⟩ := hp
        rfl
      · exact stepsTo_same _ (by simp [NodeFills.processGroup, hfil])
          (by simp [NodeFills.processGroup, hfil])
          (by simp [NodeFills.processGroup, hfil])
          (by simp [NodeFills.processGroup, hfil])

theorem NodeFills.processLine_stepsToB (st : GenSt NodeFills.TradeRow)
    (ln : Line NodeFills.BlockRecord) :
    StepsTo NodeFills.TradeRow.id st (NodeFills.processLine st ln) := by
  cases ln with
  | empty => exact stepsTo_refl _ _
  | malformed => exact stepsTo_same _ rfl rfl rfl rfl
  | good b =>
      cases hev : b.events with
      | undef =>
          exact stepsTo_same _ (by simp [NodeFills.processLine, hev])
            (by simp [NodeFills.processLine, hev]) (by simp [NodeFills.processLine, hev])
            (by simp [NodeFills.processLine, hev])
      | null =>
          exact stepsTo_same _ (by simp [NodeFills.processLine, hev])
            (by simp [NodeFills.processLine, hev]) (by simp [NodeFills.processLine, hev])
            (by simp [NodeFills.processLine, hev])
      | val evs =>
          by_cases hlen : evs.length = 0
          · exact stepsTo_same _ (by simp [NodeFills.processLine, hev, hlen])
              (by simp [NodeFills.processLine, hev, hlen])
              (by simp [NodeFills.processLine, hev, hlen])
              (by simp [NodeFills.processLine, hev, hlen])
          · have hgoal : NodeFills.processLine st (Line.good b) =
                (NodeFills.groupByTid evs).foldl NodeFills.processGroup
                  { st with stats := { st.stats with linesRead := st.stats.linesRead + 1 } } := by
              simp [NodeFills.processLine, hev, hlen]
            rw [hgoal]
            exact stepsTo_trans (stepsTo_same _ rfl rfl rfl rfl)
              (stepsTo_foldl _ _ NodeFills.processGroup_stepsTo _ _)

theorem NodeFills.processFile_stepsToB (st : GenSt NodeFills.TradeRow)
    (lines : List (Line NodeFills.BlockRecord)) :
    StepsTo NodeFills.TradeRow.id st (NodeFills.processFile st lines) :=
  stepsTo_trans
    (stepsTo_foldl _ _ NodeFills.processLine_stepsToB lines st)
    (stepsTo_same _ rfl rfl rfl rfl)

theorem emittedIds_cons {τ : Type} (idOf : τ → Nat) (out : DayOut τ) (outs : List (DayOut τ)) :
    emittedIds idOf (out :: outs) = emittedIds idOf [out] ++ emittedIds idOf outs := by
  simp [emittedIds]

theorem daySpec_core {τ : Type} (idOf : τ → Nat) {st0 st : GenSt τ}
    (h : StepsTo idOf st0 st)
    (ht0 : st0.trades = []) (hp0 : st0.parts = []) (hw0 : st0.stats.tradesWritten = 0)
    (day : DayOut τ × Nat × Stats)
    (hday : day = if st.stats.tradesWritten = 0
        then ({ files := none }, st.nextTradeId, st.stats)
        else ({ files := some (st.trades, st.parts) }, st.nextTradeId, st.stats)) :
    day.2.1 = st0.nextTradeId + day.2.2.tradesWritten ∧
    (day.2.2.tradesWritten = 0 → day.1.files = none ∧ day.2.1 = st0.nextTradeId) ∧
    emittedIds idOf [day.1] = List.range' st0.nextTradeId day.2.2.tradesWritten ∧
    (∀ tr pr, day.1.files = some (tr, pr) →
      ∀ k : Nat, k ∈ List.map idOf tr ↔ k ∈ List.map PartRow.trade_id pr) := by
  obtain ⟨d, newT, newP, hn, ht, hp, hw, hm, hk⟩ := h
  have hwd : st.stats.tradesWritten = d := by rw [hw, hw0, Nat.zero_add]
  have htT : st.trades = newT := by rw [ht, ht0, List.nil_append]
  have hpP : st.parts = newP := by rw [hp, hp0, List.nil_append]
  by_cases hz : st.stats.tradesWritten = 0
  · rw [hday, if_pos hz]
    have hd0 : d = 0 := by omega
    refine ⟨by rw [hn, hwd], fun _ => ⟨rfl, by show st.nextTradeId = st0.nextTradeId; omega⟩, ?_, ?_⟩
    · simp [emittedIds, hz]
    · intro tr pr habs
      simp at habs
  · rw [hday, if_neg hz]
    refine ⟨by rw [hn, hwd], fun h0 => absurd h0 hz, ?_, ?_⟩
    · simp only [emittedIds, List.flatMap_cons, List.flatMap_nil, List.append_nil]
      rw [htT, hm, hwd]
    · intro tr pr hsome
      simp only [Option.some.injEq, Prod.mk.injEq] at hsome
      obtain ⟨h1, h2⟩ := hsome
      intro k
      rw [← h1, ← h2, htT, hpP]
      exact (hk k).symm

theorem NodeTrades.processDay_spec (n : Nat) (files : List (List (Line NodeTrades.TradeRecord))) :
    (NodeTrades.processDay n files).2.1 = n + (NodeTrades.processDay n files).2.2.tradesWritten ∧
    ((NodeTrades.processDay n files).2.2.tradesWritten = 0 →
      (NodeTrades.processDay n files).1.files = none ∧ (NodeTrades.processDay n files).2.1 = n) ∧
    emittedIds NodeTrades.TradeRow.id [(NodeTrades.processDay n files).1] =
      List.range' n (NodeTrades.processDay n files).2.2.tradesWritten ∧
    (∀ tr pr, (NodeTrades.processDay n files).1.files = some (tr, pr) →
      ∀ k : Nat, k ∈ List.map NodeTrades.TradeRow.id tr ↔ k ∈ List.map PartRow.trade_id pr) :=
  daySpec_core NodeTrades.TradeRow.id
    (stepsTo_foldl _ _ NodeTrades.processFile_stepsTo files
      { nextTradeId := n, trades := [], parts := [], stats := stats0 })
    rfl rfl rfl (NodeTrades.processDay n files) rfl

theorem NodeFills.processDay_specB (n : Nat) (files : List (List (Line NodeFills.BlockRecord))) :
    (NodeFills.processDay n files).2.1 = n + (NodeFills.processDay n files).2.2.tradesWritten ∧
    ((NodeFills.processDay n files).2.2.tradesWritten = 0 →
      (NodeFills.processDay n files).1.files = none ∧ (NodeFills.processDay n files).2.1 = n) ∧
    emittedIds NodeFills.TradeRow.id [(NodeFills.processDay n files).1] =
      List.range' n (NodeFills.processDay n files).2.2.tradesWritten ∧
    (∀ tr pr, (NodeFills.processDay n files).1.files = some (tr, pr) →
      ∀ k : Nat, k ∈ List.map NodeFills.TradeRow.id tr ↔ k ∈ List.map PartRow.trade_id pr) :=
  daySpec_core NodeFills.TradeRow.id
    (stepsTo_foldl _ _ NodeFills.processFile_stepsToB files
      { nextTradeId := n, trades := [], parts := [], stats := stats0 })
    rfl rfl rfl (NodeFills.processDay n files) rfl

theorem NodeTrades.runDays_spec :
    ∀ (days : List (List (List (Line NodeTrades.TradeRecord)))) (n : Nat),
    (NodeTrades.runDays n days).2.1 = n + (NodeTrades.runDays n days).2.2.tradesWritten ∧
    emittedIds NodeTrades.TradeRow.id (NodeTrades.runDays n days).1 =
      List.range' n (NodeTrades.runDays n days).2.2.tradesWritten
  | [], n => by simp [NodeTrades.runDays, stats0, emittedIds]
  | d :: rest, n => by
      obtain ⟨hd1, _, hd3, _⟩ := NodeTrades.processDay_spec n d
      obtain ⟨ih1, ih2⟩ := NodeTrades.runDays_spec rest (NodeTrades.processDay n d).2.1
      simp only [NodeTrades.runDays]
      constructor
      · show (NodeTrades.runDays (NodeTrades.processDay n d).2.1 rest).2.1 =
          n + (addStats (NodeTrades.processDay n d).2.2
            (NodeTrades.runDays (NodeTrades.processDay n d).2.1 rest).2.2).tradesWritten
        simp only [addStats]
        omega
      · show emittedIds NodeTrades.TradeRow.id ((NodeTrades.processDay n d).1 ::
            (NodeTrades.runDays (NodeTrades.processDay n d).2.1 rest).1) =
          List.range' n (addStats (NodeTrades.processDay n d).2.2
            (NodeTrades.runDays (NodeTrades.processDay n d).2.1 rest).2.2).tradesWritten
        rw [emittedIds_cons, hd3, ih2, hd1]
        simp only [addStats]
        rw [List.range'_append_1]
        congr 1
        omega

theorem NodeFills.runDays_specB :
    ∀ (days : List (List (List (Line NodeFills.BlockRecord)))) (n : Nat),
    (NodeFills.runDays n days).2.1 = n + (NodeFills.runDays n days).2.2.tradesWritten ∧
    emittedIds NodeFills.TradeRow.id (NodeFills.runDays n days).1 =
      List.range' n (NodeFills.runDays n days).2.2.tradesWritten
  | [], n => by simp [NodeFills.runDays, stats0, emittedIds]
  | d :: rest, n => by
      obtain ⟨hd1, _, hd3, _⟩ := NodeFills.processDay_specB n d
      obtain ⟨ih1, ih2⟩ := NodeFills.runDays_specB rest (NodeFills.processDay n d).2.1
      simp only [NodeFills.runDays]
      constructor
      · show (NodeFills.runDays (NodeFills.processDay n d).2.1 rest).2.1 =
          n + (addStats (NodeFills.processDay n d).2.2
            (NodeFills.runDays (NodeFills.processDay n d).2.1 rest).2.2).tradesWritten
        simp only [addStats]
        omega
      · show emittedIds NodeFills.TradeRow.id ((NodeFills.processDay n d).1 ::
            (NodeFills.runDays (NodeFills.processDay n d).2.1 rest).1) =
          List.range' n (addStats (NodeFills.processDay n d).2.2
            (NodeFills.runDays (NodeFills.processDay n d).2.1 rest).2.2).tradesWritten
        rw [emittedIds_cons, hd3, ih2, hd1]
        simp only [addStats]
        rw [List.range'_append_1]
        congr 1
        omega

theorem one_le_startId (t : Option Nat) : 1 ≤ startIdFromTracking t := by
  cases t with
  | none => simp [startIdFromTracking]
  | some l =>
      simp only [startIdFromTracking]
      split <;> omega

theorem NodeTrades.run_spec (tracking : Option Nat)
    (days : List (List (List (Line NodeTrades.TradeRecord)))) :
    emittedIds NodeTrades.TradeRow.id (NodeTrades.run tracking days).dayOuts =
      List.range' (startIdFromTracking tracking) (NodeTrades.run tracking days).stats.tradesWritten ∧
    (NodeTrades.run tracking days).finalNextId =
      startIdFromTracking tracking + (NodeTrades.run tracking days).stats.tradesWritten ∧
    ((NodeTrades.run tracking days).stats.errors = 0 →
      (NodeTrades.run tracking days).trackingAfter =
        if 0 < (NodeTrades.run tracking days).stats.tradesWritten
        then some ((NodeTrades.run tracking days).finalNextId - 1) else tracking) := by
  obtain ⟨h1, h2⟩ := NodeTrades.runDays_spec days (startIdFromTracking tracking)
  simp only [NodeTrades.run]
  split
  case isTrue he => exact ⟨h2, h1, fun h0 => absurd h0 (Nat.pos_iff_ne_zero.mp he)⟩
  case isFalse he => exact ⟨h2, h1, fun _ => rfl⟩

theorem NodeFills.run_specB (tracking : Option Nat)
    (days : List (List (List (Line NodeFills.BlockRecord)))) :
    emittedIds NodeFills.TradeRow.id (NodeFills.run tracking days).dayOuts =
      List.range' (startIdFromTracking tracking) (NodeFills.run tracking days).stats.tradesWritten ∧
    (NodeFills.run tracking days).finalNextId =
      startIdFromTracking tracking + (NodeFills.run tracking days).stats.tradesWritten ∧
    ((NodeFills.run tracking days).stats.errors = 0 →
      (NodeFills.run tracking days).trackingAfter =
        if 0 < (NodeFills.run tracking days).stats.tradesWritten
        then some ((NodeFills.run tracking days).finalNextId - 1) else tracking) := by
  obtain ⟨h1, h2⟩ := NodeFills.runDays_specB days (startIdFromTracking tracking)
  simp only [NodeFills.run]
  split
  case isTrue he => exact ⟨h2, h1, fun h0 => absurd h0 (Nat.pos_iff_ne_zero.mp he)⟩
  case isFalse he => exact ⟨h2, h1, fun _ => rfl⟩

theorem doRun_spec (t : Option Nat) (r : RunInput) :
    ∃ w : Nat, (doRun t r).emitted = List.range' (startIdFromTracking t) w ∧
      ((doRun t r).errors = 0 →
        (doRun t r).trackingAfter =
          if 0 < w then some (startIdFromTracking t + w - 1) else t) := by
  cases r with
  | nodeTrades days =>
      obtain ⟨h1, h2, h3⟩ := NodeTrades.run_spec t days
      refine ⟨(NodeTrades.run t days).stats.tradesWritten, h1, ?_⟩
      intro h0
      show (NodeTrades.run t days).trackingAfter = _
      rw [h3 h0, h2]
  | nodeFills days =>
      obtain ⟨h1, h2, h3⟩ := NodeFills.run_specB t days
      refine ⟨(NodeFills.run t days).stats.tradesWritten, h1, ?_⟩
      intro h0
      show (NodeFills.run t days).trackingAfter = _
      rw [h3 h0, h2]

theorem chain_emitted_sorted :
    ∀ (runs : List RunInput) (t : Option Nat),
      chainZeroErrors t runs = true →
      List.Chain' (· < ·) (runChain t runs).1 ∧
      (∀ k ∈ (runChain t runs).1, startIdFromTracking t ≤ k)
  | [], t, _ => by simp [runChain]
  | r :: rest, t, h => by
      simp only [chainZeroErrors, Bool.and_eq_true, beq_iff_eq] at h
      obtain ⟨herr, hrest⟩ := h
      obtain ⟨w, hemit, htrack⟩ := doRun_spec t r
      obtain ⟨ihChain, ihLow⟩ := chain_emitted_sorted rest (doRun t r).trackingAfter hrest
      have htr := htrack herr
      simp only [runChain]
      by_cases hw : 0 < w
      · have h1t : 1 ≤ startIdFromTracking t := one_le_startId t
        have hlow : startIdFromTracking (doRun t r).trackingAfter = startIdFromTracking t + w := by
          rw [htr, if_pos hw]
          simp only [startIdFromTracking]
          split <;> omega
        constructor
        · rw [hemit]
          apply List.chain'_append.mpr
          refine ⟨chainLt_range' _ _, ihChain, ?_⟩
          intro x hx y hy
          have hxb := List.mem_range'_1.mp (List.mem_of_mem_getLast? hx)
          have hyb := ihLow y (List.mem_of_mem_head? hy)
          rw [hlow] at hyb
          omega
        · intro k hk
          rcases List.mem_append.mp hk with hk | hk
          · exact (List.mem_range'_1.mp (hemit ▸ hk)).1
          · have hyb := ihLow k hk
            rw [hlow] at hyb
            omega
      · have hw0 : w = 0 := by omega
        have hemit0 : (doRun t r).emitted = [] := by rw [hemit, hw0]; rfl
        have htr0 : (doRun t r).trackingAfter = t := by rw [htr, if_neg hw]
        rw [hemit0, List.nil_append, htr0]
        rw [htr0] at ihChain ihLow
        exact ⟨ihChain, ihLow⟩

theorem NodeTrades.tradeHasTwapId_iff (sis : List NodeTrades.SideInfo) :
    NodeTrades.tradeHasTwapId sis = true ↔ ∃ si ∈ sis, si.twap_id.isVal = true := by
  simp only [NodeTrades.tradeHasTwapId, List.any_eq_true, JsOpt.val_of_not_null_not_undef]

theorem NodeFills.tradeHasTwapId_iffB (ps : List (List Char × NodeFills.TradeData)) :
    NodeFills.tradeHasTwapId ps = true ↔ ∃ p ∈ ps, p.2.twapId.isVal = true := by
  simp only [NodeFills.tradeHasTwapId, List.any_eq_true, JsOpt.val_of_not_null_not_undef]

theorem NodeTrades.partRowsFrom_map_user (tid : Nat) :
    ∀ (i : Nat) (sis : List NodeTrades.SideInfo),
      (NodeTrades.partRowsFrom tid i sis).map PartRow.user_address =
        sis.map fun si => escapeCsvField (JsVal.str si.user)
  | _, [] => rfl
  | i, _ :: rest => by
      simp only [NodeTrades.partRowsFrom, List.map_cons]
      rw [NodeTrades.partRowsFrom_map_user tid (i + 1) rest]

theorem NodeTrades.partRowsFrom_map_side (tid : Nat) :
    ∀ (i : Nat) (sis : List NodeTrades.SideInfo),
      (NodeTrades.partRowsFrom tid i sis).map PartRow.side =
        (List.range' i sis.length).map fun j => if j = 0 then ['B'] else ['A']
  | _, [] => rfl
  | i, _ :: rest => by
      simp only [NodeTrades.partRowsFrom, List.map_cons, List.length_cons, List.range'_succ]
      congr 1
      · cases i <;> rfl
      · exact NodeTrades.partRowsFrom_map_side tid (i + 1) rest

theorem mem_replBackslash_self {c : Char} {s : List Char} (h : c ∈ s) : c ∈ replBackslash s := by
  simp only [replBackslash, List.mem_flatMap]
  refine ⟨c, h, ?_⟩
  by_cases hc : c = '\\' <;> simp [hc]

theorem mem_replQuote_self {c : Char} {s : List Char} (h : c ∈ s) : c ∈ replQuote s := by
  simp only [replQuote, List.mem_flatMap]
  refine ⟨c, h, ?_⟩
  by_cases hc : c = '"' <;> simp [hc]

/-! ## Claim theorems -/

/-- C1: code-bug exhibit.  With production maximum id 10 and staging
minimum id 9 — a numeric conflict the claim requires VERIFY_NO_CONFLICT
to abort on — the import does not abort: id is BIGSERIAL, node-postgres
returns both int8 aggregates as strings, and JavaScript evaluates the
string comparison lexicographically, where the digit string of 9 exceeds
the digit string of 10 because the code unit of 9 exceeds that of 1.  So
the run proceeds, MIGRATE writes the numerically overlapping staging rows
into the production table, and the process exits 0.  The final two
conjuncts show the gate is not dead code: with equal single-digit
strings (staging minimum 1, production maximum 1) it does abort with
exit 1 and production unchanged. -/
theorem c1_conflict_missed :
    BulkImport.minStagingId (BulkImport.db10.tradesStaging ++ BulkImport.csv9.trades) = some 9 ∧
    BulkImport.maxTradeIdSql BulkImport.db10.trades = some 10 ∧
    (9 : Nat) ≤ 10 ∧
    BulkImport.idConflict (some 9) (some 10) = false ∧
    (BulkImport.runImport BulkImport.db10 BulkImport.csv9 false false false false).1 = 0 ∧
    (BulkImport.runImport BulkImport.db10 BulkImport.csv9 false false false false).2.trades =
      BulkImport.db10.trades ++ BulkImport.csv9.trades ∧
    (BulkImport.runImport BulkImport.db1 BulkImport.csvConflict false false false false).1 = 1 ∧
    (BulkImport.runImport BulkImport.db1 BulkImport.csvConflict false false false false).2.trades =
      BulkImport.db1.trades := by
  decide

/-- C2: given a conflict-free verify, the MIGRATE phase copies all rows of
both staging tables into production in one transaction, preserving the
explicit ids (rows are appended verbatim); if either INSERT fails, the
transaction rolls back: the run exits 1, no partial production writes
become visible, and the staging tables are left intact. -/
theorem c2_migrate_transactional (db : BulkImport.Db) (csv : BulkImport.StagedCsvs)
    (failTrades failParts : Bool)
    (hok : BulkImport.idConflict
        (BulkImport.minStagingId (db.tradesStaging ++ csv.trades))
        (BulkImport.maxTradeIdSql db.trades) = false) :
    ((failTrades = false ∧ failParts = false) →
      BulkImport.runImport db csv failTrades failParts false false =
        (0, { trades := db.trades ++ (db.tradesStaging ++ csv.trades)
              parts := db.parts ++ (db.partsStaging ++ csv.parts)
              tradesStaging := []
              partsStaging := []
              seq := BulkImport.maxTradeId (db.trades ++ (db.tradesStaging ++ csv.trades)) })) ∧
    ((failTrades = true ∨ failParts = true) →
      BulkImport.runImport db csv failTrades failParts false false =
        (1, { db with
              tradesStaging := db.tradesStaging ++ csv.trades
              partsStaging := db.partsStaging ++ csv.parts })) := by
  constructor
  · rintro ⟨rfl, rfl⟩
    simp only [BulkImport.runImport, BulkImport.migrateTx, hok, if_false, Bool.false_eq_true,
      if_true]
  · intro hf
    rcases hf with rfl | rfl
    · simp only [BulkImport.runImport, BulkImport.migrateTx, hok, if_false, Bool.false_eq_true,
        if_true]
    · cases failTrades <;>
        simp only [BulkImport.runImport, BulkImport.migrateTx, hok, if_false, Bool.false_eq_true,
          if_true]

/-- Witness for C2: on a concrete clean run the migration appends the
staging rows to production and truncates staging, and the same run with a
failing trades INSERT exits 1 leaving production and staging untouched. -/
theorem c2_migrate_transactional_witness :
    BulkImport.runImport BulkImport.db1 BulkImport.csvClean false false false false =
      (0, { trades := BulkImport.db1.trades ++ (BulkImport.db1.tradesStaging ++ BulkImport.csvClean.trades)
            parts := BulkImport.db1.parts ++ (BulkImport.db1.partsStaging ++ BulkImport.csvClean.parts)
            tradesStaging := []
            partsStaging := []
            seq := BulkImport.maxTradeId
              (BulkImport.db1.trades ++ (BulkImport.db1.tradesStaging ++ BulkImport.csvClean.trades)) }) ∧
    BulkImport.runImport BulkImport.db1 BulkImport.csvClean true false false false =
      (1, { BulkImport.db1 with
            tradesStaging := BulkImport.db1.tradesStaging ++ BulkImport.csvClean.trades
            partsStaging := BulkImport.db1.partsStaging ++ BulkImport.csvClean.parts }) :=
  ⟨(c2_migrate_transactional BulkImport.db1 BulkImport.csvClean false false (by decide)).1
      ⟨rfl, rfl⟩,
   (c2_migrate_transactional BulkImport.db1 BulkImport.csvClean true false (by decide)).2
      (Or.inl rfl)⟩

/-- C9: escapeCsvField writes null and undefined values as the NULL
sentinel (backslash N), which is distinct from the empty string, and any
field containing a comma, a newline, or a double quote is quote-wrapped
with internal quotes doubled (replQuote) after backslash doubling. -/
theorem c9_escape_csv_field :
    escapeCsvField JsVal.null = ['\\', 'N'] ∧
    escapeCsvField JsVal.undef = ['\\', 'N'] ∧
    (escapeCsvField (JsVal.str []) = [] ∧ ([] : List Char) ≠ ['\\', 'N']) ∧
    ∀ s : List Char, (',' ∈ s ∨ '\n' ∈ s ∨ '"' ∈ s) →
      escapeCsvField (JsVal.str s) = ('"' :: replQuote (replBackslash s)) ++ ['"'] := by
  refine ⟨rfl, rfl, ⟨rfl, by decide⟩, ?_⟩
  intro s hs
  have hq : needsQuoting (replQuote (replBackslash s)) = true := by
    simp only [needsQuoting, Bool.or_eq_true]
    rcases hs with h | h | h
    · exact Or.inl (Or.inl
        (List.elem_eq_true_of_mem (mem_replQuote_self (mem_replBackslash_self h))))
    · exact Or.inl (Or.inr
        (List.elem_eq_true_of_mem (mem_replQuote_self (mem_replBackslash_self h))))
    · exact Or.inr
        (List.elem_eq_true_of_mem (mem_replQuote_self (mem_replBackslash_self h)))
  show escQuoteWrap s = _
  simp only [escQuoteWrap, hq, if_true]

/-- Witness for C9: a field containing both a comma and a quote is
quote-wrapped with the quote doubled. -/
theorem c9_escape_csv_field_witness :
    escapeCsvField (JsVal.str ['a', ',', '"']) =
      ('"' :: replQuote (replBackslash ['a', ',', '"'])) ++ ['"'] :=
  c9_escape_csv_field.2.2.2 ['a', ',', '"'] (Or.inl (by decide))

/-- C3 counterexample: the direct-insert path accepts (and so inserts) a
record whose only participant has its twap_id field absent (undefined),
even though no participant has a non-null strategy id, because hasTwapId
tests only twap_id !== null.  The two generators reject the analogous
record.  This falsifies the claimed iff for the direct-insert path. -/
theorem c3_counterexample :
    ImportTwap.hasTwapId recUndef = true ∧
    ¬ (∃ si ∈ recUndef.side_info, si.twap_id.isVal = true) := by
  decide

/-- C3 (amended): a reconstructed trade appears in the emitted output iff
at least one participant has a non-null strategy id, for the Variant A
generator and the Variant B generator; for the direct-insert import path
the equivalence holds for every record in which no participant twap_id
field is absent (undefined) — a record with an absent twap_id field is
accepted by that path even without any strategy id. -/
theorem c3_filter_iff_amended :
    (∀ (st : GenSt NodeTrades.TradeRow) (r : NodeTrades.TradeRecord),
      ((NodeTrades.processLine st (Line.good r)).trades.length = st.trades.length + 1 ↔
        ∃ si ∈ NodeTrades.participantsOf r, si.twap_id.isVal = true)) ∧
    (∀ (st : GenSt NodeFills.TradeRow) (g : Nat × List (List Char × NodeFills.TradeData)),
      ((NodeFills.processGroup st g).trades.length = st.trades.length + 1 ↔
        ∃ p ∈ g.2, p.2.twapId.isVal = true)) ∧
    (∀ r : ImportTwap.TradeRecord,
      (∀ si ∈ r.side_info, si.twap_id ≠ JsOpt.undef) →
      (ImportTwap.hasTwapId r = true ↔ ∃ si ∈ r.side_info, si.twap_id.isVal = true)) := by
  refine ⟨?_, ?_, ?_⟩
  · intro st r
    cases hsi : r.side_info with
    | undef => simp [NodeTrades.processLine, hsi, NodeTrades.participantsOf]
    | null => simp [NodeTrades.processLine, hsi, NodeTrades.participantsOf]
    | val sis =>
        have hps : NodeTrades.participantsOf r = sis := by
          simp [NodeTrades.participantsOf, hsi]
        rw [hps, ← NodeTrades.tradeHasTwapId_iff]
        by_cases hlen : sis.length = 0
        · have hnil : sis = [] := List.length_eq_zero.mp hlen
          subst hnil
          simp [NodeTrades.processLine, hsi, NodeTrades.tradeHasTwapId]
        · by_cases hfil : NodeTrades.tradeHasTwapId sis
          · simp [NodeTrades.processLine, hsi, hlen, hfil]
          · simp [NodeTrades.processLine, hsi, hlen, hfil]
  · intro st g
    rcases g with ⟨t, ps⟩
    cases ps with
    | nil =>
        simp only [NodeFills.processGroup, List.not_mem_nil, false_and, exists_false, iff_false]
        omega
    | cons p0 rest =>
        rw [← NodeFills.tradeHasTwapId_iffB]
        by_cases hfil : NodeFills.tradeHasTwapId (p0 :: rest)
        · simp [NodeFills.processGroup, hfil]
        · simp [NodeFills.processGroup, hfil]
  · intro r hundef
    simp only [ImportTwap.hasTwapId, List.any_eq_true]
    constructor
    · rintro ⟨si, hm, hnull⟩
      refine ⟨si, hm, ?_⟩
      cases hx : si.twap_id with
      | undef => exact absurd hx (hundef si hm)
      | null => rw [hx] at hnull; simp [JsOpt.isNull] at hnull
      | val v => rfl
    · rintro ⟨si, hm, hval⟩
      refine ⟨si, hm, ?_⟩
      cases hx : si.twap_id with
      | undef => rw [hx] at hval; simp [JsOpt.isVal] at hval
      | null => rw [hx] at hval; simp [JsOpt.isVal] at hval
      | val v => rfl

/-- Witness for C3 (amended): for a concrete record with both twap_id
fields present, acceptance by the direct-insert filter is equivalent to
some participant having a non-null strategy id. -/
theorem c3_filter_iff_amended_witness :
    ImportTwap.hasTwapId recImp = true ↔ ∃ si ∈ recImp.side_info, si.twap_id.isVal = true :=
  c3_filter_iff_amended.2.2 recImp (by decide)

/-- C5: for every day partition whose CSV pair either generator leaves on
disk, the set of trade_id values in the participants CSV equals exactly
the set of id values in the trades CSV for that partition. -/
theorem c5_referential_closure :
    (∀ (n : Nat) (files : List (List (Line NodeTrades.TradeRecord)))
        (tr : List NodeTrades.TradeRow) (pr : List PartRow),
      (NodeTrades.processDay n files).1.files = some (tr, pr) →
      ∀ k : Nat, k ∈ tr.map NodeTrades.TradeRow.id ↔ k ∈ pr.map PartRow.trade_id) ∧
    (∀ (n : Nat) (files : List (List (Line NodeFills.BlockRecord)))
        (tr : List NodeFills.TradeRow) (pr : List PartRow),
      (NodeFills.processDay n files).1.files = some (tr, pr) →
      ∀ k : Nat, k ∈ tr.map NodeFills.TradeRow.id ↔ k ∈ pr.map PartRow.trade_id) :=
  ⟨fun n files tr pr h => (NodeTrades.processDay_spec n files).2.2.2 tr pr h,
   fun n files tr pr h => (NodeFills.processDay_specB n files).2.2.2 tr pr h⟩

/-- Witness for C5 at one concrete day of each generator. -/
theorem c5_referential_closure_witness :
    ((1 : Nat) ∈ [NodeTrades.tradeRowOf 1 recTwap].map NodeTrades.TradeRow.id ↔
      (1 : Nat) ∈ (NodeTrades.partRowsFrom 1 0 [siTwap, siPlain]).map PartRow.trade_id) ∧
    ((1 : Nat) ∈ [NodeFills.tradeRowOf 1 tdTwap].map NodeFills.TradeRow.id ↔
      (1 : Nat) ∈ [NodeFills.partRowOf 1 (['0', 'x', 'A'], tdTwap)].map PartRow.trade_id) :=
  ⟨c5_referential_closure.1 1 [[Line.good recTwap]] _ _ (by decide) 1,
   c5_referential_closure.2 1 [[Line.good blockTwap]] _ _ (by decide) 1⟩

/-- C6: in both generators the TWAP filter runs before identifier
assignment, so after any day partition is processed the counter has
advanced by exactly the number of accepted (written) trades; skipped
trades never consume an identifier. -/
theorem c6_counter_advances_by_accepted :
    (∀ (n : Nat) (files : List (List (Line NodeTrades.TradeRecord))),
      (NodeTrades.processDay n files).2.1 = n + (NodeTrades.processDay n files).2.2.tradesWritten) ∧
    (∀ (n : Nat) (files : List (List (Line NodeFills.BlockRecord))),
      (NodeFills.processDay n files).2.1 = n + (NodeFills.processDay n files).2.2.tradesWritten) :=
  ⟨fun n files => (NodeTrades.processDay_spec n files).1,
   fun n files => (NodeFills.processDay_specB n files).1⟩

/-- C7: for every Variant A input line accepted with a side_info array,
the emitted participant rows preserve side_info order (user addresses) and
carry side B at array position 0 and side A at every later position,
regardless of any other field values in the record. -/
theorem c7_positional_sides (st : GenSt NodeTrades.TradeRow) (r : NodeTrades.TradeRecord)
    (sis : List NodeTrades.SideInfo) (hsi : r.side_info = JsOpt.val sis)
    (hfil : NodeTrades.tradeHasTwapId sis = true) :
    ∃ newP, (NodeTrades.processLine st (Line.good r)).parts = st.parts ++ newP ∧
      newP.map PartRow.user_address = sis.map (fun si => escapeCsvField (JsVal.str si.user)) ∧
      newP.map PartRow.side =
        (List.range sis.length).map fun j => if j = 0 then ['B'] else ['A'] := by
  have hlen : ¬ sis.length = 0 := by
    intro h0
    rw [List.length_eq_zero.mp h0] at hfil
    simp [NodeTrades.tradeHasTwapId] at hfil
  refine ⟨NodeTrades.partRowsFrom st.nextTradeId 0 sis, ?_, ?_, ?_⟩
  · simp [NodeTrades.processLine, hsi, hlen, hfil]
  · exact NodeTrades.partRowsFrom_map_user st.nextTradeId 0 sis
  · rw [NodeTrades.partRowsFrom_map_side st.nextTradeId 0 sis, List.range_eq_range']

/-- Witness for C7: the spec scenario, buyer 0xA at position 0 gets side
B, seller 0xB at position 1 gets side A. -/
theorem c7_positional_sides_witness :
    ∃ newP, (NodeTrades.processLine st0A (Line.good recTwap)).parts = st0A.parts ++ newP ∧
      newP.map PartRow.user_address =
        [siTwap, siPlain].map (fun si => escapeCsvField (JsVal.str si.user)) ∧
      newP.map PartRow.side =
        (List.range ([siTwap, siPlain] : List NodeTrades.SideInfo).length).map
          fun j => if j = 0 then ['B'] else ['A'] :=
  c7_positional_sides st0A recTwap [siTwap, siPlain] rfl (by decide)

/-- C8: a day partition whose input yields zero TWAP-eligible trades
leaves no CSV files on disk (the opened pair is unlinked) and does not
advance the identifier counter, in both generators. -/
theorem c8_empty_day :
    (∀ (n : Nat) (files : List (List (Line NodeTrades.TradeRecord))),
      (NodeTrades.processDay n files).2.2.tradesWritten = 0 →
      (NodeTrades.processDay n files).1.files = none ∧ (NodeTrades.processDay n files).2.1 = n) ∧
    (∀ (n : Nat) (files : List (List (Line NodeFills.BlockRecord))),
      (NodeFills.processDay n files).2.2.tradesWritten = 0 →
      (NodeFills.processDay n files).1.files = none ∧ (NodeFills.processDay n files).2.1 = n) :=
  ⟨fun n files => (NodeTrades.processDay_spec n files).2.1,
   fun n files => (NodeFills.processDay_specB n files).2.1⟩

/-- Witness for C8: concrete empty days (a filtered-out trade in each
format) leave no files and an unchanged counter. -/
theorem c8_empty_day_witness :
    ((NodeTrades.processDay 7 [[Line.good recPlain]]).1.files = none ∧
      (NodeTrades.processDay 7 [[Line.good recPlain]]).2.1 = 7) ∧
    ((NodeFills.processDay 7 [[Line.good blockPlain]]).1.files = none ∧
      (NodeFills.processDay 7 [[Line.good blockPlain]]).2.1 = 7) :=
  ⟨c8_empty_day.1 7 [[Line.good recPlain]] (by decide),
   c8_empty_day.2 7 [[Line.good blockPlain]] (by decide)⟩

/-- C10: in both generators the tracking file is written, with the last
used id, only when the run ends with zero errors and at least one written
trade; a run with errors (which exits 1) or with zero written trades
leaves the tracking file unchanged. -/
theorem c10_tracking_only_on_clean_nonempty_run :
    (∀ (t : Option Nat) (days : List (List (List (Line NodeTrades.TradeRecord)))),
      (0 < (NodeTrades.run t days).stats.errors →
        (NodeTrades.run t days).trackingAfter = t ∧ (NodeTrades.run t days).exitCode = 1) ∧
      ((NodeTrades.run t days).stats.tradesWritten = 0 →
        (NodeTrades.run t days).trackingAfter = t) ∧
      ((NodeTrades.run t days).stats.errors = 0 →
        0 < (NodeTrades.run t days).stats.tradesWritten →
        (NodeTrades.run t days).trackingAfter = some ((NodeTrades.run t days).finalNextId - 1) ∧
        (NodeTrades.run t days).exitCode = 0)) ∧
    (∀ (t : Option Nat) (days : List (List (List (Line NodeFills.BlockRecord)))),
      (0 < (NodeFills.run t days).stats.errors →
        (NodeFills.run t days).trackingAfter = t ∧ (NodeFills.run t days).exitCode = 1) ∧
      ((NodeFills.run t days).stats.tradesWritten = 0 →
        (NodeFills.run t days).trackingAfter = t) ∧
      ((NodeFills.run t days).stats.errors = 0 →
        0 < (NodeFills.run t days).stats.tradesWritten →
        (NodeFills.run t days).trackingAfter = some ((NodeFills.run t days).finalNextId - 1) ∧
        (NodeFills.run t days).exitCode = 0)) := by
  constructor
  · intro t days
    simp only [NodeTrades.run]
    split
    case isTrue he =>
        refine ⟨fun _ => ⟨rfl, rfl⟩, fun _ => rfl, fun h0 => ?_⟩
        exact absurd h0 (Nat.pos_iff_ne_zero.mp he)
    case isFalse he =>
        refine ⟨fun h => absurd h he, fun h0 => ?_, fun _ hw => ⟨?_, rfl⟩⟩
        · have h0x : (NodeTrades.runDays (startIdFromTracking t) days).2.2.tradesWritten = 0 := h0
          show (if 0 < (NodeTrades.runDays (startIdFromTracking t) days).2.2.tradesWritten
              then some ((NodeTrades.runDays (startIdFromTracking t) days).2.1 - 1) else t) = t
          rw [if_neg (by omega)]
        · show (if 0 < (NodeTrades.runDays (startIdFromTracking t) days).2.2.tradesWritten
              then some ((NodeTrades.runDays (startIdFromTracking t) days).2.1 - 1) else t) = _
          rw [if_pos hw]
  · intro t days
    simp only [NodeFills.run]
    split
    case isTrue he =>
        refine ⟨fun _ => ⟨rfl, rfl⟩, fun _ => rfl, fun h0 => ?_⟩
        exact absurd h0 (Nat.pos_iff_ne_zero.mp he)
    case isFalse he =>
        refine ⟨fun h => absurd h he, fun h0 => ?_, fun _ hw => ⟨?_, rfl⟩⟩
        · have h0x : (NodeFills.runDays (startIdFromTracking t) days).2.2.tradesWritten = 0 := h0
          show (if 0 < (NodeFills.runDays (startIdFromTracking t) days).2.2.tradesWritten
              then some ((NodeFills.runDays (startIdFromTracking t) days).2.1 - 1) else t) = t
          rw [if_neg (by omega)]
        · show (if 0 < (NodeFills.runDays (startIdFromTracking t) days).2.2.tradesWritten
              then some ((NodeFills.runDays (startIdFromTracking t) days).2.1 - 1) else t) = _
          rw [if_pos hw]

/-- Witness for C10: a run with one malformed line keeps the old tracking
value and exits 1; clean runs of each generator with one accepted trade
write the last used id and exit 0. -/
theorem c10_tracking_only_on_clean_nonempty_run_witness :
    ((NodeTrades.run (some 5) [[[Line.malformed]]]).trackingAfter = some 5 ∧
      (NodeTrades.run (some 5) [[[Line.malformed]]]).exitCode = 1) ∧
    ((NodeTrades.run none [[[Line.good recTwap]]]).trackingAfter =
        some ((NodeTrades.run none [[[Line.good recTwap]]]).finalNextId - 1) ∧
      (NodeTrades.run none [[[Line.good recTwap]]]).exitCode = 0) ∧
    ((NodeFills.run none [[[Line.good blockTwap]]]).trackingAfter =
        some ((NodeFills.run none [[[Line.good blockTwap]]]).finalNextId - 1) ∧
      (NodeFills.run none [[[Line.good blockTwap]]]).exitCode = 0) :=
  ⟨(c10_tracking_only_on_clean_nonempty_run.1 (some 5) [[[Line.malformed]]]).1 (by decide),
   (c10_tracking_only_on_clean_nonempty_run.1 none [[[Line.good recTwap]]]).2.2
      (by decide) (by decide),
   (c10_tracking_only_on_clean_nonempty_run.2 none [[[Line.good blockTwap]]]).2.2
      (by decide) (by decide)⟩

/-- C4 counterexample: two sequential variant A runs sharing one tracking
file, where the first run emits id 1 to its day CSV but ends with one
parse error (so exits 1 without advancing the tracking file), make the
second run emit id 1 again: the combined emission [1, 1] is neither
strictly increasing nor duplicate-free, falsifying the claim as stated. -/
theorem c4_counterexample :
    (runChain none [runInputErr, runInputOk]).1 = [1, 1] ∧
    ¬ List.Chain' (· < ·) (runChain none [runInputErr, runInputOk]).1 ∧
    ¬ (runChain none [runInputErr, runInputOk]).1.Nodup := by
  have h11 : (runChain none [runInputErr, runInputOk]).1 = [1, 1] := by decide
  refine ⟨h11, ?_, ?_⟩
  · rw [h11, List.chain'_cons]
    rintro ⟨h, -⟩
    exact absurd h (lt_irrefl 1)
  · rw [h11]
    decide

/-- C4 (amended): across any sequence of generator runs sharing one
tracking file in which every run finishes with zero parse errors, the
emitted trade ids are strictly increasing in emission order and never
reused (no duplicates).  A run that ends with errors leaves the tracking
file stale while its day CSVs keep their allocated ids, so the next run
can reuse them — hence the zero-error condition. -/
theorem c4_ids_strictly_increasing_amended (t : Option Nat) (runs : List RunInput)
    (h : chainZeroErrors t runs = true) :
    List.Chain' (· < ·) (runChain t runs).1 ∧ (runChain t runs).1.Nodup := by
  have hc := (chain_emitted_sorted runs t h).1
  refine ⟨hc, ?_⟩
  have hp : List.Pairwise (· < ·) (runChain t runs).1 := List.chain'_iff_pairwise.mp hc
  exact hp.imp Nat.ne_of_lt

/-- Witness for C4 (amended): a concrete error-free two-run chain, one run
of each generator variant, emits strictly increasing duplicate-free ids. -/
theorem c4_ids_strictly_increasing_amended_witness :
    List.Chain' (· < ·) (runChain none [runInputOk, runInputFills]).1 ∧
    (runChain none [runInputOk, runInputFills]).1.Nodup :=
  c4_ids_strictly_increasing_amended none [runInputOk, runInputFills] (by decide)
